import Mathlib

/-!
Verification of the `showcase` mass-flow repository.

The Python sources are shallowly embedded below, module by module:

* `src/showcase/raster.py`   : grid indexing (`Raster`)
* `src/showcase/geometry.py` : distances and turning angles (`Geometry`)
* `src/showcase/graph.py`    : drainage-graph construction (`Graph.from_dem`)
* `src/showcase/network.py`  : the older duplicate builder (`Network`)
* `src/showcase/flow.py`     : the flow engine (`Flow`)

Conventions of the embedding:

* Grid coordinates and cell ids are `ℤ` (Python ints).  `x` is the column
  index, `y` the row index, exactly as in the sources.
* A DEM array of shape `(nrow, ncol)` is embedded as a total function
  `dem : ℤ → ℤ → α` where `dem r c` is the Python read `array[r, c]`;
  the shape is passed separately, mirroring `nrow, ncol = array.shape`.
* Elevations are kept generic in a type `α` compared through a boolean
  function `gtB`, because graph construction only ever compares them with
  the float operator `>`.  Real-valued instantiations use
  `fun a b => decide (b < a)`; the IEEE behaviour of NaN (every comparison
  returns False) is modelled by `ieeeGt` on `Option ℚ` where `none` plays
  the role of a non-finite value.
* Float arithmetic of the flow engine is embedded over `ℝ`.
-/

namespace Showcase

/-! ### Raster (src/showcase/raster.py) -/

/-- The eight Moore neighbours of cell `(x, y)`, in the order of
`Raster.get_neighbour_indices`. -/
def get_neighbour_indices (x y : ℤ) : List (ℤ × ℤ) :=
  [(x - 1, y - 1), (x, y - 1), (x + 1, y - 1), (x - 1, y),
   (x + 1, y), (x - 1, y + 1), (x, y + 1), (x + 1, y + 1)]

/-- Bounds check `Raster.inside(ncol, nrow, x, y)`:
`0 <= x < ncol and 0 <= y < nrow`. -/
def inside (ncol nrow x y : ℤ) : Bool :=
  decide (0 ≤ x) && decide (x < ncol) && decide (0 ≤ y) && decide (y < nrow)

/-- `Raster.calc_1d_index(x, y, ncol) = y + x * ncol`. -/
def calc_1d_index (x y ncol : ℤ) : ℤ :=
  y + x * ncol

/-- `Network._calc_1d_index(x, y, nrow) = x + y * nrow`, the distinct id
scheme used by the older duplicate builder in `network.py`. -/
def calc_1d_index_network (x y nrow : ℤ) : ℤ :=
  x + y * nrow

/-- Inverse decoding of `calc_1d_index` (the spec requires the inverse
mapping to be derivable): the column is `id / ncol` and the row is
`id % ncol`. -/
def decode_1d_index (idx ncol : ℤ) : ℤ × ℤ :=
  (idx / ncol, idx % ncol)

/-! ### Drainage-graph construction (src/showcase/graph.py, Graph.from_dem)

`Graph.from_dem` loops over `x in range(ncol)`, `y in range(nrow)`, reads
the elevation `array[y, x]`, and for every in-bounds Moore neighbour with
strictly smaller elevation adds the directed edge
`(calc_1d_index(x, y, ncol), calc_1d_index(nx, ny, ncol))`.
The edge list below is exactly that double loop; node attributes play no
role in which edges exist, so the edge list captures the built topology. -/

/-- Edge list of the graph built by `Graph.from_dem`. -/
def fromDemEdges {α : Type} (gtB : α → α → Bool) (dem : ℤ → ℤ → α)
    (ncol nrow : ℤ) : List (ℤ × ℤ) :=
  (List.range ncol.toNat).flatMap fun xi =>
    (List.range nrow.toNat).flatMap fun yi =>
      ((get_neighbour_indices (xi : ℤ) (yi : ℤ)).filter fun q =>
          inside ncol nrow q.1 q.2 && gtB (dem (yi : ℤ) (xi : ℤ)) (dem q.2 q.1)).map
        fun q => (calc_1d_index (xi : ℤ) (yi : ℤ) ncol, calc_1d_index q.1 q.2 ncol)

/-- Node ids of the graph built by `Graph.from_dem`: every looped cell is
added as a node (line 21-23 of graph.py), and neighbour-created nodes are
in-bounds cells, hence already in this list. -/
def fromDemNodes (ncol nrow : ℤ) : List ℤ :=
  (List.range ncol.toNat).flatMap fun xi =>
    (List.range nrow.toNat).map fun yi => calc_1d_index (xi : ℤ) (yi : ℤ) ncol

/-- Elevation carried by the node of cell `(u / ncol, u % ncol)`; meaningful
whenever ids are injective (`nrow ≤ ncol`). -/
def elevAt {α : Type} (dem : ℤ → ℤ → α) (ncol u : ℤ) : α :=
  dem (u % ncol) (u / ncol)

/-- IEEE float comparison with a possibly non-finite operand: `none` stands
for NaN, and any comparison involving NaN returns `False`, exactly as the
numpy float `>` used by `Graph.from_dem` behaves. -/
def ieeeGt : Option ℚ → Option ℚ → Bool
  | some a, some b => decide (b < a)
  | _, _ => false

/-! ### Cell-level views of the three duplicate builders (claim C10)

`Graph.from_dem` (graph.py) reads the elevation of cell `(x, y)` as
`array[y, x]`; `Flow.from_array` (flow.py line 78) and `Network.graph`
(network.py line 61) read `array[x, y]` — the transposed convention.
All three run the same double loop and the same bounds check.  The
cell-level edge lists below record, for each builder, which ordered cell
pairs receive an edge; they are independent of the (also mutually
different) id encodings. -/

/-- Cell-level edges of `Graph.from_dem`: condition `array[y, x] > array[ny, nx]`. -/
def fromDemCellEdges {α : Type} (gtB : α → α → Bool) (arr : ℤ → ℤ → α)
    (ncol nrow : ℤ) : List ((ℤ × ℤ) × (ℤ × ℤ)) :=
  (List.range ncol.toNat).flatMap fun xi =>
    (List.range nrow.toNat).flatMap fun yi =>
      ((get_neighbour_indices (xi : ℤ) (yi : ℤ)).filter fun q =>
          inside ncol nrow q.1 q.2 && gtB (arr (yi : ℤ) (xi : ℤ)) (arr q.2 q.1)).map
        fun q => (((xi : ℤ), (yi : ℤ)), q)

/-- Cell-level edges of `Flow.from_array`: condition `array[x, y] > array[nx, ny]`. -/
def fromArrayCellEdges {α : Type} (gtB : α → α → Bool) (arr : ℤ → ℤ → α)
    (ncol nrow : ℤ) : List ((ℤ × ℤ) × (ℤ × ℤ)) :=
  (List.range ncol.toNat).flatMap fun xi =>
    (List.range nrow.toNat).flatMap fun yi =>
      ((get_neighbour_indices (xi : ℤ) (yi : ℤ)).filter fun q =>
          inside ncol nrow q.1 q.2 && gtB (arr (xi : ℤ) (yi : ℤ)) (arr q.1 q.2)).map
        fun q => (((xi : ℤ), (yi : ℤ)), q)

/-- Cell-level edges of `Network.graph`: condition `array[x, y] > array[nx, ny]`,
identical cell-level logic to `Flow.from_array`. -/
def networkCellEdges {α : Type} (gtB : α → α → Bool) (arr : ℤ → ℤ → α)
    (ncol nrow : ℤ) : List ((ℤ × ℤ) × (ℤ × ℤ)) :=
  (List.range ncol.toNat).flatMap fun xi =>
    (List.range nrow.toNat).flatMap fun yi =>
      ((get_neighbour_indices (xi : ℤ) (yi : ℤ)).filter fun q =>
          inside ncol nrow q.1 q.2 && gtB (arr (xi : ℤ) (yi : ℤ)) (arr q.1 q.2)).map
        fun q => (((xi : ℤ), (yi : ℤ)), q)

/-- Elevation that `Graph.from_dem` attaches to the node of cell `(x, y)`:
the read `array[y, x]`. -/
def fromDemCellElev {α : Type} (arr : ℤ → ℤ → α) (x y : ℤ) : α :=
  arr y x

/-- Elevation that `Flow.from_array` attaches to the node of cell `(x, y)`:
the read `array[x, y]` (flow.py line 78). -/
def fromArrayCellElev {α : Type} (arr : ℤ → ℤ → α) (x y : ℤ) : α :=
  arr x y

/-- Elevation that `Network.graph` compares for cell `(x, y)`:
the read `array[x, y]` (network.py line 61). -/
def networkCellElev {α : Type} (arr : ℤ → ℤ → α) (x y : ℤ) : α :=
  arr x y

/-! ### Basic facts about the builders -/

lemma inside_iff {ncol nrow x y : ℤ} :
    inside ncol nrow x y = true ↔ 0 ≤ x ∧ x < ncol ∧ 0 ≤ y ∧ y < nrow := by
  simp [inside, and_assoc]

lemma calc_1d_index_ediv {x y ncol : ℤ} (hy0 : 0 ≤ y) (hy : y < ncol) :
    calc_1d_index x y ncol / ncol = x := by
  have hc : ncol ≠ 0 := by omega
  rw [calc_1d_index, Int.add_mul_ediv_right _ _ hc, Int.ediv_eq_zero_of_lt hy0 hy,
    zero_add]

lemma calc_1d_index_emod {x y ncol : ℤ} (hy0 : 0 ≤ y) (hy : y < ncol) :
    calc_1d_index x y ncol % ncol = y := by
  rw [calc_1d_index, Int.add_mul_emod_self, Int.emod_eq_of_lt hy0 hy]

/-- Edge membership unfolded to the loop conditions of `Graph.from_dem`. -/
lemma mem_fromDemEdges {α : Type} {gtB : α → α → Bool} {dem : ℤ → ℤ → α}
    {ncol nrow u v : ℤ} :
    (u, v) ∈ fromDemEdges gtB dem ncol nrow ↔
      ∃ x y : ℤ, 0 ≤ x ∧ x < ncol ∧ 0 ≤ y ∧ y < nrow ∧
        ∃ q ∈ get_neighbour_indices x y,
          inside ncol nrow q.1 q.2 = true ∧
          gtB (dem y x) (dem q.2 q.1) = true ∧
          u = calc_1d_index x y ncol ∧ v = calc_1d_index q.1 q.2 ncol := by
  simp only [fromDemEdges, List.mem_flatMap, List.mem_range, List.mem_map,
    List.mem_filter, Bool.and_eq_true]
  constructor
  · rintro ⟨xi, hxi, yi, hyi, q, ⟨hq, hin, hgt⟩, heq⟩
    have hu : u = calc_1d_index (xi : ℤ) (yi : ℤ) ncol := by
      have := congrArg Prod.fst heq; simpa using this.symm
    have hv : v = calc_1d_index q.1 q.2 ncol := by
      have := congrArg Prod.snd heq; simpa using this.symm
    exact ⟨(xi : ℤ), (yi : ℤ), by omega, by omega, by omega, by omega,
      q, hq, hin, hgt, hu, hv⟩
  · rintro ⟨x, y, hx0, hxc, hy0, hyr, q, hq, hin, hgt, hu, hv⟩
    refine ⟨x.toNat, by omega, y.toNat, by omega, q, ?_⟩
    rw [Int.toNat_of_nonneg hx0, Int.toNat_of_nonneg hy0]
    exact ⟨⟨hq, hin, hgt⟩, by rw [hu, hv]⟩

/-- When `nrow ≤ ncol` the cell ids of `Graph.from_dem` are injective, and
every edge strictly decreases the elevation read off the (then well-defined)
decoded cell of its endpoint ids. -/
lemma fromDemEdges_elev_lt {α : Type} [LinearOrder α] {dem : ℤ → ℤ → α}
    {ncol nrow u v : ℤ} (hsq : nrow ≤ ncol)
    (h : (u, v) ∈ fromDemEdges (fun p q => decide (q < p)) dem ncol nrow) :
    elevAt dem ncol v < elevAt dem ncol u := by
  obtain ⟨x, y, hx0, hxc, hy0, hyr, q, hq, hin, hgt, hu, hv⟩ :=
    mem_fromDemEdges.mp h
  obtain ⟨hn1, hn2, hn3, hn4⟩ := inside_iff.mp hin
  have hlt : dem q.2 q.1 < dem y x := of_decide_eq_true hgt
  have hyc : y < ncol := lt_of_lt_of_le hyr hsq
  have hqc : q.2 < ncol := lt_of_lt_of_le hn4 hsq
  rw [hu, hv, elevAt, elevAt, calc_1d_index_ediv hy0 hyc, calc_1d_index_emod hy0 hyc,
    calc_1d_index_ediv hn3 hqc, calc_1d_index_emod hn3 hqc]
  exact hlt

/-- When both operands of `ieeeGt` compare as strictly greater, both are
finite (`some`): a NaN operand makes every comparison `false`. -/
lemma ieeeGt_isSome {a b : Option ℚ} (h : ieeeGt a b = true) :
    a.isSome = true ∧ b.isSome = true := by
  cases a <;> cases b <;> simp [ieeeGt] at h ⊢

/-! ### Concrete grids used as counterexamples -/

/-- Elevation grid with `ncol = 2`, `nrow = 3` (more rows than columns), as
`dem row col`; row-major values `[[1, 10], [2, 5], [0, 3]]`. -/
def demC2 : ℤ → ℤ → ℤ := fun r c =>
  if r = 0 then (if c = 0 then 1 else 10)
  else if r = 1 then (if c = 0 then 2 else 5)
  else (if c = 0 then 0 else 3)

/-- Elevation grid `[[5, NaN], [4, 1]]` with a non-finite value at row 0,
column 1 (cell `x = 1, y = 0`). -/
def demN : ℤ → ℤ → Option ℚ := fun r c =>
  if r = 0 then (if c = 0 then some 5 else none)
  else (if c = 0 then some 4 else some 1)

/-- Elevation grid `[[1, 4], [0, 2]]`, not symmetric, used to separate the
row-major and transposed array-read conventions of the duplicate builders. -/
def demX : ℤ → ℤ → ℤ := fun r c =>
  if r = 0 then (if c = 0 then 1 else 4) else (if c = 0 then 0 else 2)

/-! ### Claim C2 -/

/-- C2, counterexample.  The claim states that for every elevation grid the
graph built by `Graph.from_dem` is acyclic.  On the 3-row, 2-column grid
`demC2` the id encoding `y + x * ncol` collides: cell `(1, 0)` (elevation 10)
and cell `(0, 2)` (elevation 0) both receive id 2, and the built graph
contains the directed cycle `2 → 3 → 2`, so a topological sort fails. -/
theorem C2_cycle_counterexample :
    Relation.TransGen
      (fun u v => (u, v) ∈ fromDemEdges (fun p q : ℤ => decide (q < p)) demC2 2 3)
      2 2 := by
  have h1 : ((2 : ℤ), (3 : ℤ)) ∈
      fromDemEdges (fun p q : ℤ => decide (q < p)) demC2 2 3 := by decide
  have h2 : ((3 : ℤ), (2 : ℤ)) ∈
      fromDemEdges (fun p q : ℤ => decide (q < p)) demC2 2 3 := by decide
  exact Relation.TransGen.head h1 (Relation.TransGen.single h2)

/-- C2, amended.  Every edge of `Graph.from_dem` does go from a strictly
higher to a strictly lower 8-connected cell, but node identity is the id
`y + x * ncol`, which is only injective when `nrow ≤ ncol`.  Under that
proviso the graph contains no directed cycle (no node is reachable from
itself through a nonempty edge path), so a topological sort succeeds. -/
theorem C2_acyclic_when_nrow_le_ncol {α : Type} [LinearOrder α]
    (dem : ℤ → ℤ → α) (ncol nrow : ℤ) (hsq : nrow ≤ ncol) (a : ℤ) :
    ¬ Relation.TransGen
      (fun u v => (u, v) ∈ fromDemEdges (fun p q => decide (q < p)) dem ncol nrow)
      a a := by
  intro hcyc
  have key : ∀ {p r : ℤ},
      Relation.TransGen
        (fun u v => (u, v) ∈ fromDemEdges (fun p q => decide (q < p)) dem ncol nrow)
        p r → elevAt dem ncol r < elevAt dem ncol p := by
    intro p r ht
    induction ht with
    | single h => exact fromDemEdges_elev_lt hsq h
    | tail _ h ih => exact lt_trans (fromDemEdges_elev_lt hsq h) ih
  exact lt_irrefl _ (key hcyc)

/-- C2, witness for the amended theorem at a concrete square grid. -/
theorem C2_acyclic_when_nrow_le_ncol_witness :
    ¬ Relation.TransGen
      (fun u v => (u, v) ∈
        fromDemEdges (fun p q : ℚ => decide (q < p)) (fun _ _ => 0) 2 2)
      0 0 :=
  C2_acyclic_when_nrow_le_ncol (fun _ _ => (0 : ℚ)) 2 2 (by norm_num) 0

/-! ### Claim C3 -/

/-- C3, counterexample.  The claim states that the id encoding used by the
graph builder is injective over the whole in-bounds domain.  With `ncol = 2`
and `nrow = 3`, the distinct in-bounds cells `(col, row) = (1, 0)` and
`(0, 2)` receive the same id `2 = row + col * ncol`. -/
theorem C3_collision_counterexample :
    calc_1d_index 1 0 2 = calc_1d_index 0 2 2 ∧ inside 2 3 1 0 = true ∧
      inside 2 3 0 2 = true ∧ ((1, 0) : ℤ × ℤ) ≠ (0, 2) := by
  decide

/-- C3, amended.  The encoding `id = row + col * ncol` used by
`Graph.from_dem` is injective on the in-bounds domain, with `(col, row)`
recoverable as `(id / ncol, id % ncol)`, exactly when `nrow ≤ ncol` (the
row index then stays below the multiplier `ncol`); for `nrow > ncol`
distinct cells collide. -/
theorem C3_index_injective_when_nrow_le_ncol
    (ncol nrow x1 y1 x2 y2 : ℤ) (hsq : nrow ≤ ncol)
    (hx1 : 0 ≤ x1) (hx1c : x1 < ncol) (hy1 : 0 ≤ y1) (hy1r : y1 < nrow)
    (hx2 : 0 ≤ x2) (hx2c : x2 < ncol) (hy2 : 0 ≤ y2) (hy2r : y2 < nrow) :
    (calc_1d_index x1 y1 ncol = calc_1d_index x2 y2 ncol → x1 = x2 ∧ y1 = y2)
    ∧ decode_1d_index (calc_1d_index x1 y1 ncol) ncol = (x1, y1) := by
  have hy1c : y1 < ncol := lt_of_lt_of_le hy1r hsq
  have hy2c : y2 < ncol := lt_of_lt_of_le hy2r hsq
  constructor
  · intro h
    constructor
    · have := congrArg (fun t => t / ncol) h
      simpa [calc_1d_index_ediv hy1 hy1c, calc_1d_index_ediv hy2 hy2c] using this
    · have := congrArg (fun t => t % ncol) h
      simpa [calc_1d_index_emod hy1 hy1c, calc_1d_index_emod hy2 hy2c] using this
  · rw [decode_1d_index, calc_1d_index_ediv hy1 hy1c, calc_1d_index_emod hy1 hy1c]

/-- C3, witness for the amended theorem on a concrete 3-column, 2-row grid. -/
theorem C3_index_injective_when_nrow_le_ncol_witness :
    decode_1d_index (calc_1d_index 2 1 3) 3 = (2, 1) :=
  (C3_index_injective_when_nrow_le_ncol 3 2 2 1 2 1 (by norm_num)
    (by norm_num) (by norm_num) (by norm_num) (by norm_num)
    (by norm_num) (by norm_num) (by norm_num) (by norm_num)).2

/-! ### Claim C9 -/

/-- C9, counterexample.  The claim states that a non-finite elevation makes
graph construction fail with an invalid-input error.  `Graph.from_dem`
performs no validation at all: on the grid `[[5, NaN], [4, 1]]` it returns
a graph (the embedded builder is a total function with no error outcome);
the NaN cell `(x, y) = (1, 0)` is still added as node
`calc_1d_index 1 0 2 = 2`, every comparison against it is `false`, so the
build silently yields exactly the three edges among the finite cells. -/
theorem C9_nan_counterexample :
    fromDemEdges ieeeGt demN 2 2 = [(0, 1), (0, 3), (1, 3)] ∧
      calc_1d_index 1 0 2 ∈ fromDemNodes 2 2 := by
  decide

/-- C9, amended.  Construction never raises: a non-finite elevation is
silently accepted, and because IEEE comparisons with NaN are all `false`,
every edge the builder creates connects two finite cells, leaving each
non-finite cell an isolated node rather than failing the build. -/
theorem C9_edges_connect_finite_cells
    (dem : ℤ → ℤ → Option ℚ) (ncol nrow u v : ℤ)
    (h : (u, v) ∈ fromDemEdges ieeeGt dem ncol nrow) :
    ∃ x y nx ny : ℤ, u = calc_1d_index x y ncol ∧ v = calc_1d_index nx ny ncol ∧
      (dem y x).isSome = true ∧ (dem ny nx).isSome = true := by
  obtain ⟨x, y, hx0, hxc, hy0, hyr, q, hq, hin, hgt, hu, hv⟩ :=
    mem_fromDemEdges.mp h
  obtain ⟨h1, h2⟩ := ieeeGt_isSome hgt
  exact ⟨x, y, q.1, q.2, hu, hv, h1, h2⟩

/-- C9, witness: the amended theorem applied to the first edge of the NaN
grid. -/
theorem C9_edges_connect_finite_cells_witness :
    ∃ x y nx ny : ℤ, (0 : ℤ) = calc_1d_index x y 2 ∧ (1 : ℤ) = calc_1d_index nx ny 2 ∧
      (demN y x).isSome = true ∧ (demN ny nx).isSome = true :=
  C9_edges_connect_finite_cells demN 2 2 0 1 (by decide)

/-! ### Claim C10 -/

/-- C10, counterexample.  The claim states that `Graph.from_dem`,
`Flow.from_array` and `Network.graph` build the same drainage graph.  On the
non-symmetric 2 by 2 grid `demX` the cell-level edge sets of `from_dem` and
`from_array` differ (they read the array in transposed conventions), the
elevation attached to cell `(1, 0)` differs (4 versus 0), and the id
encodings of `graph.py`/`flow.py` and `network.py` give different ids to
cell `(1, 0)`. -/
theorem C10_builders_differ_counterexample :
    fromDemCellEdges (fun p q : ℤ => decide (q < p)) demX 2 2 ≠
      fromArrayCellEdges (fun p q : ℤ => decide (q < p)) demX 2 2 ∧
    fromDemCellElev demX 1 0 ≠ fromArrayCellElev demX 1 0 ∧
    calc_1d_index 1 0 2 ≠ calc_1d_index_network 1 0 2 := by
  decide

/-- C10, amended.  The three builders agree only up to transposition of the
input array: for square shapes, `Flow.from_array` builds the cell-level
graph that `Graph.from_dem` builds on the transposed array, and
`Network.graph` builds cell-for-cell the same graph as `Flow.from_array`;
the duplicated distance functions of `geometry.py` and `network.py` are the
same function of the cell coordinates. -/
theorem C10_builders_agree_up_to_transpose
    (α : Type) (gtB : α → α → Bool) (arr : ℤ → ℤ → α) (n : ℤ) :
    fromArrayCellEdges gtB arr n n = fromDemCellEdges gtB (fun r c => arr c r) n n ∧
    networkCellEdges gtB arr n n = fromArrayCellEdges gtB arr n n ∧
    (∀ x y : ℤ, fromArrayCellElev arr x y = fromDemCellElev (fun r c => arr c r) x y) ∧
    (∀ x y : ℤ, networkCellElev arr x y = fromArrayCellElev arr x y) :=
  ⟨rfl, rfl, fun _ _ => rfl, fun _ _ => rfl⟩

/-! ### Geometry (src/showcase/geometry.py) -/

/-- `Geometry.calc_distance`: planar Euclidean distance between two cells. -/
noncomputable def calc_distance (x1 y1 x2 y2 : ℝ) : ℝ :=
  Real.sqrt ((x2 - x1) ^ 2 + (y2 - y1) ^ 2)

/-- `Network._calc_distance`: the verbatim duplicate in `network.py`. -/
noncomputable def network_calc_distance (x1 y1 x2 y2 : ℝ) : ℝ :=
  Real.sqrt ((x2 - x1) ^ 2 + (y2 - y1) ^ 2)

/-- `np.dot` on two 2-vectors. -/
def dotProd (v w : ℝ × ℝ) : ℝ :=
  v.1 * w.1 + v.2 * w.2

/-- `Geometry.unit_vector`: divide a 2-vector by its Euclidean norm. -/
noncomputable def unit_vector (v : ℝ × ℝ) : ℝ × ℝ :=
  (v.1 / Real.sqrt (v.1 ^ 2 + v.2 ^ 2), v.2 / Real.sqrt (v.1 ^ 2 + v.2 ^ 2))

/-- `np.clip(x, lo, hi)`. -/
def clip (x lo hi : ℝ) : ℝ :=
  max lo (min x hi)

/-- `np.deg2rad`. -/
noncomputable def deg2rad (x : ℝ) : ℝ :=
  x * (Real.pi / 180)

/-- `np.rad2deg`. -/
noncomputable def rad2deg (x : ℝ) : ℝ :=
  x * (180 / Real.pi)

/-- `Geometry.calc_angle_pbc`: turning angle in degrees between the vectors
parent to base and base to child, through unit vectors, a clipped dot
product and `arccos`. -/
noncomputable def calc_angle_pbc (xp yp xb yb xc yc : ℝ) : ℝ :=
  rad2deg (Real.arccos
    (clip (dotProd (unit_vector (xb - xp, yb - yp)) (unit_vector (xc - xb, yc - yb)))
      (-1) 1))

/-! ### Flow engine (src/showcase/flow.py)

The graph an instance of `Flow` works on is embedded as total attribute
maps.  The sources read node attributes in two spellings:
`graph.nodes[n][KEY]` (correct networkx usage, as in `Graph.get_coordinates`
and the tests) and `graph[n][KEY]` or even `n[KEY]` (as in
`calc_z_gamma` line 116, `calc_z_delta` line 122, `calc_persistence`
line 158, `calc_routing` lines 176 and 178), which at run time subscript
the adjacency view or the integer id itself and raise on every call.

The engine is therefore embedded twice.  The formula-level definitions
(`calc_z_gamma`, `calc_z_delta`, `tan_phi`, `calc_direction`,
`calc_persistence`) repair the adjacency-subscript reads into node
attribute reads — they are the arithmetic the source spells out and its
tests exercise, but not values the program ever produces.  The faithful
`..._run` definitions further below keep those reads failing
(`adjacencySubscript`), as do the bare-integer subscripts of
`calc_routing` (`intSubscript`); each claim about a quantity the source
can never compute is settled against the run semantics. -/

structure FlowGraph where
  x : ℤ → ℝ
  y : ℤ → ℝ
  elevation : ℤ → ℝ
  z_delta : ℤ → ℝ
  release : ℤ → ℝ
  dist : ℤ → ℤ → ℝ
  flux : ℤ → ℤ → ℝ
  children : ℤ → List ℤ
  parents : ℤ → List ℤ

structure Flow where
  graph : FlowGraph
  resolution : ℝ
  alpha : ℝ
  z_delta_max : ℝ
  exponent : ℝ

/-- `Flow.calc_z_alpha`: frictional loss
`edge[DIST] * resolution * tan(deg2rad(alpha))`. -/
noncomputable def calc_z_alpha (F : Flow) (node child : ℤ) : ℝ :=
  F.graph.dist node child * F.resolution * Real.tan (deg2rad F.alpha)

/-- `Flow.calc_z_gamma`: change in potential energy,
`elevation(node) - elevation(child)`.  Repaired read: line 116 of the
source spells the elevation reads `self.graph[node][ELEV]`, an adjacency
subscript that raises KeyError on every call; this definition reads the
intended node attribute, the faithful behaviour is `calc_z_gamma_run`. -/
noncomputable def calc_z_gamma (F : Flow) (node child : ℤ) : ℝ :=
  F.graph.elevation node - F.graph.elevation child

/-- `Flow.calc_z_delta`: per-edge kinetic energy height
`max(0, min(z_delta(node) + z_gamma - z_alpha, z_delta_max))`.  Repaired
reads: line 122 spells the nodal read `self.graph[node][ZD]` (adjacency
subscript, KeyError) and calls the crashing `calc_z_gamma`; this
definition is the clamp formula on the intended attributes, the faithful
behaviour is `calc_z_delta_run`. -/
noncomputable def calc_z_delta (F : Flow) (node child : ℤ) : ℝ :=
  max 0 (min (F.graph.z_delta node + calc_z_gamma F node child - calc_z_alpha F node child)
    F.z_delta_max)

/-- The Holmgren slope weight of `Flow.calc_direction` (lines 134-140):
`tan_phi = tan((arctan(z_gamma / (dist * resolution)) + deg2rad(90)) / 2)`,
built on the repaired `calc_z_gamma`; in the source this value is never
reached because `calc_z_gamma` raises first. -/
noncomputable def tan_phi (F : Flow) (node c : ℤ) : ℝ :=
  Real.tan ((Real.arctan (calc_z_gamma F node c / (F.graph.dist node c * F.resolution))
    + deg2rad 90) / 2)

/-- The denominator of `Flow.calc_direction` (line 141):
`sum(tan_phi ** exponent)` over all children, with the float power `**`
embedded as the real power. -/
noncomputable def direction_denominator (F : Flow) (node : ℤ) : ℝ :=
  ((F.graph.children node).map fun c => tan_phi F node c ^ F.exponent).sum

/-- `Flow.calc_direction` for one child (lines 142-146):
`max(0, tan_phi ** exponent / denominator)`, on the repaired reads; the
source inherits the unconditional KeyError of `calc_z_gamma` at line 135
and never produces a weight, see `calc_direction_run`. -/
noncomputable def calc_direction (F : Flow) (node child : ℤ) : ℝ :=
  max 0 (tan_phi F node child ^ F.exponent / direction_denominator F node)

/-! ### A small concrete flow used by witnesses: the cell chain 0 - 1 with
elevations 1 and 0, unit distance and the parameters of the test suite. -/

def FwGraph : FlowGraph where
  x := fun n => (n : ℝ)
  y := fun _ => 0
  elevation := fun n => if n = 0 then 1 else 0
  z_delta := fun _ => 0
  release := fun _ => 0
  dist := fun _ _ => 1
  flux := fun _ _ => 0
  children := fun n => if n = 0 then [1] else []
  parents := fun _ => []

def Fw : Flow where
  graph := FwGraph
  resolution := 1
  alpha := 10
  z_delta_max := 1000
  exponent := 4

/-- Formula-level normalization of the Holmgren weights: for any node with
at least one child and positive planar edge lengths (so that the Python
division inside `arctan` is the real one), the weights of the repaired
`calc_direction` each lie in `[0, 1]` and sum to exactly 1; the slope
weight `tan_phi` is strictly positive for every real slope, so no
nonzero-weight hypothesis is needed. -/
lemma direction_formula_normalized (F : Flow) (node : ℤ)
    (hne : F.graph.children node ≠ [])
    (hd : ∀ c ∈ F.graph.children node, 0 < F.graph.dist node c * F.resolution) :
    (((F.graph.children node).map fun c => calc_direction F node c).sum = 1)
    ∧ ∀ c ∈ F.graph.children node,
        0 ≤ calc_direction F node c ∧ calc_direction F node c ≤ 1 := by
  have h90 : deg2rad 90 = Real.pi / 2 := by
    rw [deg2rad]; ring
  have htp : ∀ c : ℤ, 0 < tan_phi F node c := by
    intro c
    rw [tan_phi, h90]
    have h1 := Real.neg_pi_div_two_lt_arctan
      (calc_z_gamma F node c / (F.graph.dist node c * F.resolution))
    have h2 := Real.arctan_lt_pi_div_two
      (calc_z_gamma F node c / (F.graph.dist node c * F.resolution))
    apply Real.tan_pos_of_pos_of_lt_pi_div_two
    · linarith
    · linarith
  have hpow : ∀ c : ℤ, 0 < tan_phi F node c ^ F.exponent := fun c =>
    Real.rpow_pos_of_pos (htp c) _
  have hD : 0 < direction_denominator F node := by
    rw [direction_denominator]
    apply List.sum_pos
    · intro a ha
      obtain ⟨c, hc, rfl⟩ := List.mem_map.mp ha
      exact hpow c
    · simpa using hne
  have heach : ∀ c ∈ F.graph.children node,
      calc_direction F node c =
        tan_phi F node c ^ F.exponent / direction_denominator F node := by
    intro c hc
    rw [calc_direction]
    exact max_eq_right (le_of_lt (div_pos (hpow c) hD))
  refine ⟨?_, ?_⟩
  · rw [List.map_congr_left heach]
    have hsplit : ((F.graph.children node).map fun c =>
        tan_phi F node c ^ F.exponent / direction_denominator F node) =
        (F.graph.children node).map fun c =>
          tan_phi F node c ^ F.exponent * (direction_denominator F node)⁻¹ := by
      simp [div_eq_mul_inv]
    have hDD : ((F.graph.children node).map fun c =>
        tan_phi F node c ^ F.exponent).sum = direction_denominator F node := rfl
    rw [hsplit, List.sum_map_mul_right, hDD, mul_inv_cancel₀ (ne_of_gt hD)]
  · intro c hc
    refine ⟨le_max_left _ _, ?_⟩
    rw [heach c hc]
    refine (div_le_one hD).mpr ?_
    refine List.single_le_sum ?_ _ (List.mem_map_of_mem _ hc)
    intro a ha
    obtain ⟨e, he, rfl⟩ := List.mem_map.mp ha
    exact le_of_lt (hpow e)

/-! ### Persistence (flow.py lines 148-159, parameters.py line 5) -/

/-- The persistence table `PERS = {0: 1, 45: 0.707, 90: 0, 135: 0}` together
with the Python dictionary lookup `PERS[angle]` performed by
`calc_persistence`: the continuous float angle is the key, a lookup succeeds
only when the angle equals one of the four keys exactly (Python float/int
equality), and any other angle raises a KeyError, embedded as `none`. -/
noncomputable def PERS (a : ℝ) : Option ℝ :=
  if a = 0 then some 1
  else if a = 45 then some 0.707
  else if a = 90 then some 0
  else if a = 135 then some 0
  else none

/-- The turning angle `calc_persistence` computes from the stored node
coordinates (flow.py lines 153-157). -/
noncomputable def angle_pbc (F : Flow) (parent base child : ℤ) : ℝ :=
  calc_angle_pbc (F.graph.x parent) (F.graph.y parent) (F.graph.x base)
    (F.graph.y base) (F.graph.x child) (F.graph.y child)

/-- `Flow.calc_persistence`: `PERS[angle] * z_delta(base)` with no special
case for start nodes or for zero kinetic energy height.  Repaired read:
line 158 spells the `z_delta` read `self.graph[base][ZD]` (adjacency
subscript, KeyError before the line-159 lookup is attempted); this
definition reads the intended node attribute, the faithful behaviour is
`calc_persistence_run`. -/
noncomputable def calc_persistence (F : Flow) (parent base child : ℤ) : Option ℝ :=
  (PERS (angle_pbc F parent base child)).map fun w => w * F.graph.z_delta base

/-- Modelled from the spec: the persistence table keyed by the turning angle
rounded to the nearest integer degree, as the spec prescribes
(the source performs no such rounding; this definition exists to state what
the rounding claim C7 predicts). -/
noncomputable def PERS_rounded (k : ℤ) : Option ℝ :=
  if k = 0 then some 1
  else if k = 45 then some 0.707
  else if k = 90 then some 0
  else if k = 135 then some 0
  else none

/-- Modelled from the spec: persistence with the angle rounded to the
nearest integer degree before the table lookup. -/
noncomputable def calc_persistence_rounded (F : Flow) (parent base child : ℤ) : Option ℝ :=
  (PERS_rounded (round (angle_pbc F parent base child))).map
    fun w => w * F.graph.z_delta base

/-! ### The flow engine as it actually runs

The `..._run` definitions keep the adjacency-subscript attribute reads of
the source failing: in networkx, `graph[n]` is the adjacency view of node
`n`, keyed by the integer ids of its successors, so subscripting it with a
string attribute key raises KeyError on every call. -/

/-- Attribute keys from parameters.py spelled into the broken reads. -/
def ELEV : String := "elevation"

def ZD : String := "z_delta"

/-- The read `self.graph[node][key]` with a string attribute key (flow.py
lines 116, 122 and 158): the adjacency view of `node` never contains a
string key, the read raises KeyError and produces no value. -/
def adjacencySubscript (F : Flow) (node : ℤ) (key : String) : Option ℝ :=
  none

/-- `Flow.calc_z_gamma` as it actually runs (line 116): both elevation
reads subscript the adjacency view and fail, so the difference is never
formed. -/
def calc_z_gamma_run (F : Flow) (node child : ℤ) : Option ℝ := do
  let e1 ← adjacencySubscript F node ELEV
  let e2 ← adjacencySubscript F child ELEV
  return e1 - e2

/-- `Flow.calc_z_delta` as it actually runs (lines 120-123): `z_alpha`
(line 120) is a correct edge read, but `calc_z_gamma` (line 121) raises
and the nodal `z_delta` read (line 122) is itself an adjacency subscript,
so the clamp of line 123 is never reached. -/
noncomputable def calc_z_delta_run (F : Flow) (node child : ℤ) : Option ℝ := do
  let za := calc_z_alpha F node child
  let zg ← calc_z_gamma_run F node child
  let zd ← adjacencySubscript F node ZD
  return max 0 (min (zd + zg - za) F.z_delta_max)

/-- `Flow.calc_direction` as it actually runs (lines 130-146): for a node
with children, the first loop iteration already calls `calc_z_gamma`
(line 135), which raises, so no direction weight is ever produced; for a
childless node the final dictionary access `direction_dict[child]` raises
instead (modelled by the failing lookup on the empty association list). -/
noncomputable def calc_direction_run (F : Flow) (node child : ℤ) : Option ℝ := do
  let children := F.graph.children node
  let tan_phis ← children.mapM fun c => do
    let zg ← calc_z_gamma_run F node c
    return Real.tan ((Real.arctan (zg / (F.graph.dist node c * F.resolution))
      + deg2rad 90) / 2)
  let denominator := (tan_phis.map fun i => i ^ F.exponent).sum
  let directions := tan_phis.map fun i => max 0 (i ^ F.exponent / denominator)
  (children.zip directions).lookup child

/-- `Flow.calc_persistence` as it actually runs (lines 153-159): the
coordinate reads use `graph.nodes` and succeed, the angle of line 157 is
computed, then the read `z_delta = self.graph[base][ZD]` of line 158
raises before the table lookup of line 159 is ever attempted. -/
noncomputable def calc_persistence_run (F : Flow) (parent base child : ℤ) : Option ℝ := do
  let angle := angle_pbc F parent base child
  let zd ← adjacencySubscript F base ZD
  let w ← PERS angle
  return w * zd

/-! ### Claim C5 -/

/-- C5: the claim states that the direction weights computed by
`calc_direction` each lie in `[0, 1]` and sum to 1.0 within 1e-9.  The
program never computes any direction weight: the first step of
`calc_direction` calls `calc_z_gamma`, whose `self.graph[node][ELEV]` read
raises KeyError on every call — shown here on the single-child node 0 of
`Fw` (first conjunct).  The Holmgren formula with the intended
node-attribute reads satisfies exactly the claimed normalization (second
conjunct), so the claim describes the evident intent —
`test_calc_direction` expects the weights 0.9662 and 0.0338 — and the
attribute read is the slip. -/
theorem C5_direction_crashes_formula_normalizes :
    calc_direction_run Fw 0 1 = none
    ∧ ∀ (F : Flow) (node : ℤ), F.graph.children node ≠ [] →
        (∀ c ∈ F.graph.children node, 0 < F.graph.dist node c * F.resolution) →
        (((F.graph.children node).map fun c => calc_direction F node c).sum = 1)
        ∧ ∀ c ∈ F.graph.children node,
            0 ≤ calc_direction F node c ∧ calc_direction F node c ≤ 1 := by
  constructor
  · rfl
  · exact direction_formula_normalized

/-- C5, witness: the formula-level normalization conjunct applied at the
concrete flow `Fw`. -/
theorem C5_direction_crashes_formula_normalizes_witness :
    ((Fw.graph.children 0).map fun c => calc_direction Fw 0 c).sum = 1 :=
  (C5_direction_crashes_formula_normalizes.2 Fw 0 (by norm_num [Fw, FwGraph])
    (by intro c hc; norm_num [Fw, FwGraph])).1

/-! ### Claim C8 -/

/-- C8: the claim states `0 ≤ z_delta_edge ≤ z_delta_max` for every
computed per-edge kinetic energy height.  The program never computes one:
`calc_z_delta` reads `self.graph[node][ZD]` and calls `calc_z_gamma`, both
adjacency subscripts that raise KeyError unconditionally — shown on edge
`(0, 1)` of `Fw`, where `test_calc_z_delta` would expect 0.7506 (first
conjunct).  The clamp formula with the intended attribute reads keeps
every value inside `[0, z_delta_max]` for all inputs, distances
arbitrarily close to zero included, provided the global parameter
`z_delta_max` is nonnegative (second conjunct) — the claim is the intent,
the reads are the slip. -/
theorem C8_z_delta_crashes_formula_clamped :
    calc_z_delta_run Fw 0 1 = none
    ∧ ∀ (F : Flow) (node child : ℤ), 0 ≤ F.z_delta_max →
        0 ≤ calc_z_delta F node child ∧ calc_z_delta F node child ≤ F.z_delta_max := by
  constructor
  · simp [calc_z_delta_run, calc_z_gamma_run, adjacencySubscript]
  · exact fun F node child h => ⟨le_max_left _ _, max_le h (min_le_right _ _)⟩

/-- C8, witness: the clamp-formula conjunct applied at the concrete flow
`Fw`. -/
theorem C8_z_delta_crashes_formula_clamped_witness :
    0 ≤ calc_z_delta Fw 0 1 ∧ calc_z_delta Fw 0 1 ≤ Fw.z_delta_max :=
  C8_z_delta_crashes_formula_clamped.2 Fw 0 1 (by norm_num [Fw])

/-- Turning angle of a straight continuation: if the base-to-child vector is
a positive multiple of the parent-to-base vector (both nonzero), the angle
is exactly 0 degrees. -/
lemma calc_angle_pbc_eq_zero {xp yp xb yb xc yc t : ℝ} (ht : 0 < t)
    (hx : xc - xb = t * (xb - xp)) (hy : yc - yb = t * (yb - yp))
    (hv : ¬(xb - xp = 0 ∧ yb - yp = 0)) :
    calc_angle_pbc xp yp xb yb xc yc = 0 := by
  set a := xb - xp with ha
  set b := yb - yp with hb
  have hab : 0 < a ^ 2 + b ^ 2 := by
    rcases not_and_or.mp hv with h | h
    · nlinarith [pow_two_pos_of_ne_zero h, sq_nonneg b]
    · nlinarith [pow_two_pos_of_ne_zero h, sq_nonneg a]
  have hn : 0 < Real.sqrt (a ^ 2 + b ^ 2) := Real.sqrt_pos.mpr hab
  have hnsq : Real.sqrt (a ^ 2 + b ^ 2) ^ 2 = a ^ 2 + b ^ 2 :=
    Real.sq_sqrt (le_of_lt hab)
  have hv2 : Real.sqrt ((t * a) ^ 2 + (t * b) ^ 2) = t * Real.sqrt (a ^ 2 + b ^ 2) := by
    rw [show (t * a) ^ 2 + (t * b) ^ 2 = t ^ 2 * (a ^ 2 + b ^ 2) by ring,
      Real.sqrt_mul (sq_nonneg t), Real.sqrt_sq (le_of_lt ht)]
  have hdot : dotProd (unit_vector (a, b)) (unit_vector (xc - xb, yc - yb)) = 1 := by
    rw [hx, hy, unit_vector, unit_vector, dotProd]
    simp only
    rw [hv2]
    field_simp
    nlinarith [hnsq]
  rw [calc_angle_pbc, hdot]
  rw [show clip 1 (-1) 1 = 1 by rw [clip]; norm_num]
  rw [Real.arccos_one, rad2deg, zero_mul]

/-- On a straight continuation the source persistence evaluates to
`PERS[0] * z_delta(base) = z_delta(base)`. -/
lemma calc_persistence_straight (F : Flow) (p b c : ℤ) {t : ℝ} (ht : 0 < t)
    (hx : F.graph.x c - F.graph.x b = t * (F.graph.x b - F.graph.x p))
    (hy : F.graph.y c - F.graph.y b = t * (F.graph.y b - F.graph.y p))
    (hv : ¬(F.graph.x b - F.graph.x p = 0 ∧ F.graph.y b - F.graph.y p = 0)) :
    calc_persistence F p b c = some (F.graph.z_delta b) := by
  have h0 : angle_pbc F p b c = 0 := calc_angle_pbc_eq_zero ht hx hy hv
  rw [calc_persistence, h0, PERS]
  norm_num

/-! ### Claim C6 -/

/-- Concrete flow for claim C6: a vertical chain of cells `(1, 0)`, `(1, 1)`,
`(1, 2)` (node ids 0, 1, 2) whose base node 1 has kinetic energy height 0,
exactly the situation of `test_calc_persistence`. -/
def F6Graph : FlowGraph where
  x := fun _ => 1
  y := fun n => (n : ℝ)
  elevation := fun n => 2 - (n : ℝ)
  z_delta := fun _ => 0
  release := fun _ => 0
  dist := fun _ _ => 1
  flux := fun _ _ => 0
  children := fun n => if n = 0 then [1] else if n = 1 then [2] else []
  parents := fun n => if n = 1 then [0] else if n = 2 then [1] else []

def F6 : Flow where
  graph := F6Graph
  resolution := 1
  alpha := 10
  z_delta_max := 1000
  exponent := 4

/-- C6: the claim states that a node with zero inherited kinetic energy
height has persistence 1.0 toward every child.  The code has no such
branch: `calc_persistence` always returns `PERS[angle] * z_delta(base)`,
which is 0 whenever `z_delta(base) = 0` — here on a perfectly straight
continuation (angle 0, table weight 1) the computed persistence is
`some 0`, not the `1.0` the claim and `test_calc_persistence` require. -/
theorem C6_zero_z_delta_persistence :
    calc_persistence F6 0 1 2 = some 0 ∧ (0 : ℝ) ≠ 1 := by
  constructor
  · have h := calc_persistence_straight F6 0 1 2 (t := 1) (by norm_num)
      (by norm_num [F6, F6Graph]) (by norm_num [F6, F6Graph])
      (by norm_num [F6, F6Graph])
    simpa [F6, F6Graph] using h
  · norm_num

/-! ### Claim C4 -/

/-- The `z_delta` pass of `Flow.build_model` (flow.py lines 211-219): the
loop walks the topologically sorted nodes, assigns `z_delta = 0` to start
nodes (empty parent list), and for every other node the `else` branch of
the source is literally `pass`, so nothing is assigned.  This fold
idealizes the loop: the source crashes before it
(`Graph.add_data_from_array` called without its `field` argument, line
206) and inside it (the sorted node list is passed where a graph is
expected, and `active_sorted[node][ZD] = 0` subscript-assigns into a
list), so at run time even this start-node assignment never happens. -/
def build_model_z_pass (parentsOf : ℤ → List ℤ) (order : List ℤ) : ℤ → Option ℝ :=
  order.foldl
    (fun zd node =>
      if (parentsOf node).isEmpty then Function.update zd node (some 0) else zd)
    (fun _ => none)

/-- Parent map of the minimal two-cell slope: node 1 drains from node 0. -/
def parents4 : ℤ → List ℤ := fun n => if n = 1 then [0] else []

/-- C4: the claim states that after `build_model` every start node has
`z_delta = 0` and every non-start node has `z_delta` equal to the maximum
of the incoming per-edge values.  In the code only the start-node half
exists: on the two-cell slope `0 → 1` processed in topological order
`[0, 1]`, the start node 0 does get `z_delta = 0`, but the non-start node 1
is left with no `z_delta` at all because the `else` branch is `pass` (and
the routing steps of the loop body are only comments). -/
theorem C4_build_model_z_delta :
    build_model_z_pass parents4 [0, 1] 0 = some 0 ∧
      build_model_z_pass parents4 [0, 1] 1 = none := by
  constructor <;> norm_num [build_model_z_pass, parents4, Function.update]

/-! ### Claim C1 -/

/-- Attribute keys from parameters.py used by `calc_routing`. -/
def FLUX : String := "flux"

def REL : String := "release"

/-- Subscripting a bare integer node id with an attribute key, exactly what
`calc_routing` does in `p[FLUX]` (line 176, `p` ranges over the integer
parent ids) and `node[REL]` (line 178): a Python int is not subscriptable,
the operation raises TypeError, so the read never produces a value. -/
def intSubscript (node : ℤ) (key : String) : Option ℝ :=
  none

/-- `Flow.calc_routing` (flow.py lines 161-178), step for step: directions
and summed persistence values for all children, the routing denominator,
the direction and persistence for the requested child, then the incoming
flux `sum([p[FLUX] for p in parents])` and the release `node[REL]` — the
two reads that subscript bare integer ids — and finally
`direction * persistence / denominator * (flux + release)`.  The direction
and persistence steps use the repaired definitions; at run time the first
failure is already the KeyError inside `calc_direction` (line 166 via
line 135 and line 116), before the modelled integer subscripts, so the
overall outcome, no value, is the same. -/
noncomputable def calc_routing (F : Flow) (node child : ℤ) : Option ℝ := do
  let parents := F.graph.parents node
  let children := F.graph.children node
  let dirs := children.map fun c => calc_direction F node c
  let pers ← children.mapM fun c =>
    (parents.mapM fun p => calc_persistence F p node c).map List.sum
  let denominator := ((dirs.zip pers).map fun q => q.1 * q.2).sum
  let direction := calc_direction F node child
  let persistence ← (parents.mapM fun p => calc_persistence F p node child).map List.sum
  let flux ← (parents.mapM fun p => intSubscript p FLUX).map List.sum
  let rel ← intSubscript node REL
  return direction * persistence / denominator * (flux + rel)

/-- The routing denominator of `calc_routing` line 170,
`sum([d * p for d, p in zip(dirs, pers)])`, with the per-child direction and
persistence values supplied as pairs. -/
def routing_denominator (dp : List (ℝ × ℝ)) : ℝ :=
  (dp.map fun q => q.1 * q.2).sum

/-- The per-child flux values of `calc_routing` line 178,
`direction * persistence / denominator * (flux + release)`, for a node whose
total incoming mass is `total = flux + release`. -/
noncomputable def routing_fluxes (total : ℝ) (dp : List (ℝ × ℝ)) : List ℝ :=
  dp.map fun q => q.1 * q.2 / routing_denominator dp * total

/-- Concrete flow for claim C1: the straight chain of cells `(0, 0)`,
`(1, 0)`, `(2, 0)` (ids 0, 1, 2) with unit drops and distances; node 1 has
parent 0, child 2, kinetic energy height 2 and exponent 1, so its routing
denominator is `1 * 2 = 2`, nonzero. -/
def F1Graph : FlowGraph where
  x := fun n => (n : ℝ)
  y := fun _ => 0
  elevation := fun n => if n = 1 then 1 else 0
  z_delta := fun n => if n = 1 then 2 else 0
  release := fun _ => 0
  dist := fun _ _ => 1
  flux := fun _ _ => 0
  children := fun n => if n = 1 then [2] else []
  parents := fun n => if n = 1 then [0] else []

def F1 : Flow where
  graph := F1Graph
  resolution := 1
  alpha := 10
  z_delta_max := 1000
  exponent := 1

/-- The slope weight is strictly positive for every edge: the argument of
`tan` lies strictly between 0 and pi over 2 because `arctan` does. -/
lemma tan_phi_pos (F : Flow) (node c : ℤ) : 0 < tan_phi F node c := by
  have h90 : deg2rad 90 = Real.pi / 2 := by rw [deg2rad]; ring
  rw [tan_phi, h90]
  have h1 := Real.neg_pi_div_two_lt_arctan
    (calc_z_gamma F node c / (F.graph.dist node c * F.resolution))
  have h2 := Real.arctan_lt_pi_div_two
    (calc_z_gamma F node c / (F.graph.dist node c * F.resolution))
  apply Real.tan_pos_of_pos_of_lt_pi_div_two
  · linarith
  · linarith

/-- C1: the claim states that `calc_routing` splits
`release + inherited_flux` mass-conservatively over the children whenever
the routing denominator is nonzero.  At the concrete node 1 of `F1` the
denominator is `direction * persistence = 1 * 2 = 2`, nonzero, yet
`calc_routing` produces no value at all: reading the inherited flux
subscripts the bare integer parent id (`p[FLUX]`), a TypeError.  The
splitting formula itself, evaluated on any supplied per-child direction and
persistence values with nonzero denominator, does conserve the total mass
exactly — the claim describes the intended behaviour, the implemented
reads crash. -/
theorem C1_routing_crashes_formula_conserves :
    calc_routing F1 1 2 = none
    ∧ calc_direction F1 1 2 = 1
    ∧ ((F1.graph.parents 1).mapM fun p => calc_persistence F1 p 1 2).map List.sum
        = some 2
    ∧ ∀ (total : ℝ) (dp : List (ℝ × ℝ)), routing_denominator dp ≠ 0 →
        (routing_fluxes total dp).sum = total := by
  have hpers : calc_persistence F1 0 1 2 = some 2 := by
    have h := calc_persistence_straight F1 0 1 2 (t := 1) (by norm_num)
      (by norm_num [F1, F1Graph]) (by norm_num [F1, F1Graph])
      (by norm_num [F1, F1Graph])
    simpa [F1, F1Graph] using h
  refine ⟨?_, ?_, ?_, ?_⟩
  · simp [calc_routing, F1, F1Graph, hpers, intSubscript]
  · have ht := tan_phi_pos F1 1 2
    rw [calc_direction, direction_denominator]
    have hc : F1.graph.children 1 = [2] := by norm_num [F1, F1Graph]
    rw [hc]
    simp only [List.map_cons, List.map_nil, List.sum_cons, List.sum_nil, add_zero]
    rw [div_self (ne_of_gt (Real.rpow_pos_of_pos ht F1.exponent))]
    norm_num
  · have hp : F1.graph.parents 1 = [0] := by norm_num [F1, F1Graph]
    rw [hp]
    simp only [List.mapM_cons, List.mapM_nil, hpers, Option.pure_def, Option.bind_eq_bind,
      Option.some_bind, Option.map_some]
    norm_num
  · intro total dp hD
    rw [routing_fluxes]
    have hsplit : (dp.map fun q => q.1 * q.2 / routing_denominator dp * total) =
        dp.map fun q => q.1 * q.2 * (total / routing_denominator dp) := by
      apply List.map_congr_left
      intro q hq
      rw [div_mul_eq_mul_div, mul_div_assoc]
    rw [hsplit, List.sum_map_mul_right]
    have hDD : (dp.map fun q => q.1 * q.2).sum = routing_denominator dp := rfl
    rw [hDD, mul_div_cancel₀ total hD]

/-- C1, witness: the splitting formula applied to one child with direction 1
and persistence 2 routes the full mass 5. -/
theorem C1_routing_formula_witness :
    (routing_fluxes 5 [(1, 2)]).sum = 5 :=
  C1_routing_crashes_formula_conserves.2.2.2 5 [(1, 2)]
    (by norm_num [routing_denominator])

/-! ### Claim C7 -/

/-- Concrete flow for claim C7: parent at `(0, 0)`, base at `(1, 0)`, child
at `(201, 1)`.  The turning angle is `arccos (200 / sqrt 40001)`, about
0.286 degrees: strictly positive but below half a degree, so it rounds to
the table key 0 while being equal to none of the keys exactly. -/
def F7Graph : FlowGraph where
  x := fun n => if n = 0 then 0 else if n = 1 then 1 else 201
  y := fun n => if n = 2 then 1 else 0
  elevation := fun _ => 0
  z_delta := fun _ => 1
  release := fun _ => 0
  dist := fun _ _ => 1
  flux := fun _ _ => 0
  children := fun _ => []
  parents := fun _ => []

def F7 : Flow where
  graph := F7Graph
  resolution := 1
  alpha := 10
  z_delta_max := 1000
  exponent := 4

/-- The turning angle of `F7` in degrees lies strictly between 0 and one
half. -/
lemma F7_angle_bounds :
    0 < angle_pbc F7 0 1 2 ∧ angle_pbc F7 0 1 2 < 1 / 2 := by
  have hang : angle_pbc F7 0 1 2 =
      rad2deg (Real.arccos (200 / Real.sqrt 40001)) := by
    have hx0 : F7.graph.x 0 = 0 := by norm_num [F7, F7Graph]
    have hx1 : F7.graph.x 1 = 1 := by norm_num [F7, F7Graph]
    have hx2 : F7.graph.x 2 = 201 := by norm_num [F7, F7Graph]
    have hy0 : F7.graph.y 0 = 0 := by norm_num [F7, F7Graph]
    have hy1 : F7.graph.y 1 = 0 := by norm_num [F7, F7Graph]
    have hy2 : F7.graph.y 2 = 1 := by norm_num [F7, F7Graph]
    rw [angle_pbc, hx0, hx1, hx2, hy0, hy1, hy2, calc_angle_pbc]
    have e1 : ((1 : ℝ) - 0) ^ 2 + ((0 : ℝ) - 0) ^ 2 = 1 := by norm_num
    have e2 : ((201 : ℝ) - 1) ^ 2 + ((1 : ℝ) - 0) ^ 2 = 40001 := by norm_num
    rw [unit_vector, unit_vector, dotProd]
    simp only [e1, e2, Real.sqrt_one]
    have hs0 : (0 : ℝ) < Real.sqrt 40001 := Real.sqrt_pos.mpr (by norm_num)
    have hs1 : (200 : ℝ) < Real.sqrt 40001 :=
      (Real.lt_sqrt (by norm_num)).mpr (by norm_num)
    have hd : ((1 : ℝ) - 0) / 1 * (((201 : ℝ) - 1) / Real.sqrt 40001) +
        ((0 : ℝ) - 0) / 1 * (((1 : ℝ) - 0) / Real.sqrt 40001) =
        200 / Real.sqrt 40001 := by ring
    rw [hd]
    have hd1 : (200 : ℝ) / Real.sqrt 40001 < 1 := (div_lt_one hs0).mpr hs1
    have hd0 : (0 : ℝ) < 200 / Real.sqrt 40001 := div_pos (by norm_num) hs0
    rw [clip, min_eq_left hd1.le, max_eq_right (by linarith)]
  have hs0 : (0 : ℝ) < Real.sqrt 40001 := Real.sqrt_pos.mpr (by norm_num)
  have hs1 : (200 : ℝ) < Real.sqrt 40001 :=
    (Real.lt_sqrt (by norm_num)).mpr (by norm_num)
  have hs2 : Real.sqrt 40001 < 200.0025 :=
    (Real.sqrt_lt' (by norm_num)).mpr (by norm_num)
  have hd1 : (200 : ℝ) / Real.sqrt 40001 < 1 := (div_lt_one hs0).mpr hs1
  have hdlb : (0.99998 : ℝ) < 200 / Real.sqrt 40001 := by
    have h := div_lt_div_of_pos_left (by norm_num : (0 : ℝ) < 200) hs0 hs2
    have h2 : (0.99998 : ℝ) < 200 / 200.0025 := by norm_num
    linarith
  have hθpos : 0 < Real.arccos (200 / Real.sqrt 40001) :=
    Real.arccos_pos.mpr hd1
  have hπ : (0 : ℝ) < Real.pi := Real.pi_pos
  have hcos_small : Real.cos (Real.pi / 360) < 0.99998 := by
    have hxpos : (0 : ℝ) < Real.pi / 720 := by positivity
    have hxle : Real.pi / 720 ≤ 1 := by nlinarith [Real.pi_lt_d6]
    have hcube := Real.sin_gt_sub_cube hxpos hxle
    have hl : (0.0043633 : ℝ) < Real.pi / 720 := by nlinarith [Real.pi_gt_d6]
    have hu : Real.pi / 720 < 0.0043634 := by nlinarith [Real.pi_lt_d6]
    have hc3 : (Real.pi / 720) ^ 3 < (0.0043634 : ℝ) ^ 3 := by
      gcongr
    have hc4 : (0.0043634 : ℝ) ^ 3 / 4 < 0.0000001 := by norm_num
    have hsin : (0.00436 : ℝ) < Real.sin (Real.pi / 720) := by linarith
    have hid : Real.cos (Real.pi / 360) = 1 - 2 * Real.sin (Real.pi / 720) ^ 2 := by
      rw [show Real.pi / 360 = 2 * (Real.pi / 720) by ring, Real.cos_two_mul,
        Real.cos_sq']
      ring
    rw [hid]
    nlinarith
  have hθsmall : Real.arccos (200 / Real.sqrt 40001) < Real.pi / 360 := by
    by_contra hcon
    push_neg at hcon
    have h1 : Real.cos (Real.arccos (200 / Real.sqrt 40001)) ≤
        Real.cos (Real.pi / 360) :=
      Real.cos_le_cos_of_nonneg_of_le_pi (by positivity) (Real.arccos_le_pi _) hcon
    rw [Real.cos_arccos (by linarith) hd1.le] at h1
    linarith
  constructor
  · rw [hang, rad2deg]
    have : (0 : ℝ) < 180 / Real.pi := by positivity
    exact mul_pos hθpos this
  · rw [hang, rad2deg]
    have hmul := mul_lt_mul_of_pos_right hθsmall
      (by positivity : (0 : ℝ) < 180 / Real.pi)
    have heq : Real.pi / 360 * (180 / Real.pi) = 1 / 2 := by
      field_simp
      ring
    linarith

/-- C7, counterexample.  The claim states that the turning angle is rounded
to the nearest integer degree before the persistence-table lookup and that
an unmapped angle fails loudly with the node and edge identified.  On the
configuration `F7` the continuous angle is about 0.286 degrees: it rounds
to 0, a key of the table, so the claim predicts a successful lookup with
persistence `1 * z_delta(base) = 1` (third conjunct, via the spec-modelled
rounded lookup).  The source never performs any lookup at all: as it runs,
`calc_persistence` raises KeyError at the `self.graph[base][ZD]` read of
line 158, before line 159 (first conjunct); and even with that read
repaired it would use the unrounded float as dictionary key, find no
entry, and fail with a bare KeyError naming only the angle (second
conjunct). -/
theorem C7_no_rounding_counterexample :
    calc_persistence_run F7 0 1 2 = none ∧
      calc_persistence F7 0 1 2 = none ∧
      calc_persistence_rounded F7 0 1 2 = some 1 := by
  obtain ⟨hpos, hhalf⟩ := F7_angle_bounds
  refine ⟨rfl, ?_, ?_⟩
  · rw [calc_persistence, PERS]
    rw [if_neg (ne_of_gt hpos), if_neg (by intro h; rw [h] at hhalf; norm_num at hhalf),
      if_neg (by intro h; rw [h] at hhalf; norm_num at hhalf),
      if_neg (by intro h; rw [h] at hhalf; norm_num at hhalf)]
    rfl
  · rw [calc_persistence_rounded]
    have hround : round (angle_pbc F7 0 1 2) = 0 :=
      round_eq_zero_iff.mpr ⟨by linarith, by linarith⟩
    rw [hround, PERS_rounded]
    norm_num [F7, F7Graph]

/-- C7, amended.  `calc_persistence` never reaches the persistence-table
lookup: the `z_delta` read `self.graph[base][ZD]` of line 158 subscripts
the adjacency view and raises KeyError on every call, so no angle —
rounded or not — is ever looked up and no UnmappedAngle failure
identifying the offending node or edge exists (first conjunct, over all
inputs).  Even granting the intended node-attribute read, no rounding is
applied: the continuous angle itself is the dictionary key, so a
persistence value exists exactly when the angle equals 0, 45, 90 or 135
degrees (second conjunct), any other angle raising a bare KeyError that
carries the angle but no node or edge identifiers; on a straight
continuation, angle exactly 0, the repaired lookup returns weight 1 times
`z_delta(base)` (third conjunct). -/
theorem C7_persistence_never_reaches_lookup :
    (∀ (F : Flow) (p b c : ℤ), calc_persistence_run F p b c = none)
    ∧ (∀ (F : Flow) (p b c : ℤ), (calc_persistence F p b c).isSome = true ↔
        (angle_pbc F p b c = 0 ∨ angle_pbc F p b c = 45 ∨
          angle_pbc F p b c = 90 ∨ angle_pbc F p b c = 135))
    ∧ ∀ (F : Flow) (p b c : ℤ) (t : ℝ), 0 < t →
        F.graph.x c - F.graph.x b = t * (F.graph.x b - F.graph.x p) →
        F.graph.y c - F.graph.y b = t * (F.graph.y b - F.graph.y p) →
        ¬(F.graph.x b - F.graph.x p = 0 ∧ F.graph.y b - F.graph.y p = 0) →
        calc_persistence F p b c = some (F.graph.z_delta b) := by
  refine ⟨fun F p b c => rfl, ?_, ?_⟩
  · intro F p b c
    rw [calc_persistence, Option.isSome_map']
    rw [PERS]
    split_ifs with h1 h2 h3 h4 <;> simp_all
  · intro F p b c t ht hx hy hv
    exact calc_persistence_straight F p b c ht hx hy hv

/-- C7, witness: the straight-continuation conjunct of the amended theorem
applied to the chain `F1`, where the angle is exactly 0. -/
theorem C7_persistence_never_reaches_lookup_witness :
    calc_persistence F1 0 1 2 = some (F1.graph.z_delta 1) :=
  C7_persistence_never_reaches_lookup.2.2 F1 0 1 2 1 (by norm_num)
    (by norm_num [F1, F1Graph]) (by norm_num [F1, F1Graph])
    (by norm_num [F1, F1Graph])

end Showcase
